import Mathlib

/-!
Verification of the Nova-launch token-deployment front-end.

The file embeds the observable behavior of the two flows in
`src/frontend/src/services/stellar.ts` (token deployment and minting) and of
the transaction-monitoring polling loop described by the repository
documentation.  External effects (the Stellar SDK, the JS `Number`
conversion, the clock) are modelled as explicit environments, so every run
of a flow is a pure function of its inputs and its environment, returning
both the surfaced result and the ordered list of SDK operations performed.
-/

namespace NovaLaunch

/-- Character-list comparison: the first list starts with the second. -/
def leadsWith : List Char → List Char → Bool
  | _, [] => true
  | [], _ :: _ => false
  | c :: cs, d :: ds => c == d && leadsWith cs ds

/-- Substring search: `needle` occurs inside the second list. -/
def occursIn (needle : List Char) : List Char → Bool
  | [] => leadsWith [] needle
  | c :: t => leadsWith (c :: t) needle || occursIn needle t

/-- JS `String.prototype.includes`: substring containment, as used by the
error classification in `mintTokens`. -/
def includes (hay needle : String) : Bool :=
  occursIn needle.toList hay.toList

/-- JS `String.prototype.trim`: strip leading and trailing whitespace. -/
def jsTrim (s : String) : String :=
  ⟨((s.toList.dropWhile Char.isWhitespace).reverse.dropWhile
      Char.isWhitespace).reverse⟩

/-- A value thrown by JS code: either an `Error` carrying a message, or any
non-`Error` value (only its non-`Error`-ness is observable in the catch
blocks of `stellar.ts`). -/
inductive JsThrow where
  | error (msg : String)
  | nonError
deriving DecidableEq

/-- Outcome of `server.simulateTransaction`: a successful simulation, a
response for which `SorobanRpc.Api.isSimulationError` holds (carrying the
`error` string), or a rejected promise. -/
inductive SimOutcome where
  | ok
  | simError (msg : String)
  | throws (e : JsThrow)
deriving DecidableEq

/-- The SDK operations a flow in `stellar.ts` can perform, in the order the
code performs them.  `buildInvocation` stands for the `Contract`
construction together with the `nativeToScVal` conversions and
`contract.call`; `getAccount` and `simulateTransaction` are the two
`server` round trips. -/
inductive SdkCall where
  | buildInvocation
  | getAccount (address : String)
  | simulateTransaction
deriving DecidableEq

/-- Environment for one `mintTokens` call: the outcome of each SDK step and
the hash of the prepared transaction. -/
structure MintSdk where
  build : Except JsThrow Unit
  account : String → Except JsThrow Unit
  sim : SimOutcome
  hash : String

/-- The SDK phase of `mintTokens` (lines 103-143 of `stellar.ts`): build the
`mint_tokens` invocation, fetch the admin account, simulate, and return the
prepared transaction hash; a simulation error mentioning `auth` (or
`unauthorized`) is turned into the dedicated authorization error. -/
def mintSdkPhase (sdk : MintSdk) (adminAddress : String) :
    Except JsThrow String × List SdkCall :=
  match sdk.build with
  | .error e => (.error e, [.buildInvocation])
  | .ok _ =>
    match sdk.account adminAddress with
    | .error e => (.error e, [.buildInvocation, .getAccount adminAddress])
    | .ok _ =>
      match sdk.sim with
      | .throws e =>
        (.error e,
          [.buildInvocation, .getAccount adminAddress, .simulateTransaction])
      | .simError msg =>
        (if includes msg "unauthorized" || includes msg "auth" then
           .error (.error "Unauthorized: Admin authorization required for minting")
         else
           .error (.error ("Simulation failed: " ++ msg)),
          [.buildInvocation, .getAccount adminAddress, .simulateTransaction])
      | .ok =>
        (.ok sdk.hash,
          [.buildInvocation, .getAccount adminAddress, .simulateTransaction])

/-- The `try` body of `mintTokens` (lines 88-143): the four validation
guards, then the SDK phase.  `num` models the JS `Number` conversion of the
host runtime, returning `none` when the result would be `NaN`. -/
def mintTokensTry (sdk : MintSdk)
    (tokenAddress recipient amount adminAddress : String)
    (num : String → Option ℚ) : Except JsThrow String × List SdkCall :=
  if jsTrim tokenAddress = "" then
    (.error (.error "Token address is required"), [])
  else if jsTrim recipient = "" then
    (.error (.error "Recipient address is required"), [])
  else if jsTrim adminAddress = "" then
    (.error (.error "Admin address is required"), [])
  else if amount = "" then
    (.error (.error "Invalid amount: must be a positive number"), [])
  else
    match num amount with
    | none => (.error (.error "Invalid amount: must be a positive number"), [])
    | some q =>
      if q ≤ 0 then
        (.error (.error "Invalid amount: must be a positive number"), [])
      else
        mintSdkPhase sdk adminAddress

/-- The `catch` block of `mintTokens` (lines 144-156): classify the thrown
value into the surfaced error message. -/
def mintCatch : JsThrow → String
  | .error msg =>
    if includes msg "unauthorized" || includes msg "Unauthorized" then
      "Unauthorized: Only the admin can mint tokens"
    else if includes msg "Invalid amount" then
      msg
    else
      "Minting failed: " ++ msg
  | .nonError => "Minting failed: Unknown error"

/-- `StellarService.mintTokens`: the `try` body wrapped in the classifying
`catch`.  Returns the surfaced result together with the SDK call trace. -/
def mintTokens (sdk : MintSdk)
    (tokenAddress recipient amount adminAddress : String)
    (num : String → Option ℚ) : Except String String × List SdkCall :=
  let r := mintTokensTry sdk tokenAddress recipient amount adminAddress num
  (match r.1 with
   | .ok h => .ok h
   | .error e => .error (mintCatch e), r.2)

/-- Metadata attached to a token deployment.  The `types.ts` file is not in
the sources; the code only tests `params.metadata ? … : …`, so metadata is
modelled as an optional object (absent, or present and truthy). -/
structure TokenMetadata where
  uri : String
deriving DecidableEq

/-- `TokenDeployParams` as consumed by `deployToken`. -/
structure TokenDeployParams where
  name : String
  symbol : String
  decimals : ℕ
  initialSupply : ℤ
  adminWallet : String
  metadata : Option TokenMetadata
deriving DecidableEq

/-- `DeploymentResult` as produced by `deployToken`. -/
structure DeploymentResult where
  tokenAddress : String
  transactionHash : String
  totalFee : String
  timestamp : ℤ
deriving DecidableEq

/-- `StellarService.calculateTotalFee` (lines 162-166): 10 XLM base fee in
stroops plus 5 XLM when metadata is present. -/
def calculateTotalFee (params : TokenDeployParams) : ℕ :=
  let baseFee := 10000000
  let metadataFee := if params.metadata.isSome then 5000000 else 0
  baseFee + metadataFee

/-- `StellarService.handleError` (lines 171-176): an `Error` is returned
unchanged, anything else becomes the generic unknown-error message. -/
def handleError : JsThrow → String
  | .error msg => msg
  | .nonError => "An unknown error occurred"

/-- Environment for one `deployToken` call: outcomes of the SDK steps, the
prepared transaction hash, and the value of `Date.now()`. -/
structure DeploySdk where
  build : Except JsThrow Unit
  account : String → Except JsThrow Unit
  sim : SimOutcome
  hash : String
  now : ℤ

/-- The `try` body of `deployToken` (lines 31-68): build the `create_token`
invocation, fetch the source account, simulate, and assemble the result.
There are no validation guards in this flow. -/
def deployTokenTry (sdk : DeploySdk) (params : TokenDeployParams)
    (sourceAddress : String) :
    Except JsThrow DeploymentResult × List SdkCall :=
  match sdk.build with
  | .error e => (.error e, [.buildInvocation])
  | .ok _ =>
    match sdk.account sourceAddress with
    | .error e => (.error e, [.buildInvocation, .getAccount sourceAddress])
    | .ok _ =>
      match sdk.sim with
      | .throws e =>
        (.error e,
          [.buildInvocation, .getAccount sourceAddress, .simulateTransaction])
      | .simError msg =>
        (.error (.error ("Simulation failed: " ++ msg)),
          [.buildInvocation, .getAccount sourceAddress, .simulateTransaction])
      | .ok =>
        (.ok { tokenAddress := ""
               transactionHash := sdk.hash
               totalFee := toString (calculateTotalFee params)
               timestamp := sdk.now },
          [.buildInvocation, .getAccount sourceAddress, .simulateTransaction])

/-- `StellarService.deployToken`: the `try` body wrapped in
`throw this.handleError(error)`. -/
def deployToken (sdk : DeploySdk) (params : TokenDeployParams)
    (sourceAddress : String) :
    Except String DeploymentResult × List SdkCall :=
  let r := deployTokenTry sdk params sourceAddress
  (match r.1 with
   | .ok d => .ok d
   | .error e => .error (handleError e), r.2)

/-- Modelled from the spec: the state component of a transaction status
(`pending`, `success`, `failed`); the monitor implementation itself is not
among the sources, only its documentation. -/
inductive TxState where
  | pending
  | success
  | failed
deriving DecidableEq

/-- Modelled from the spec: the `TransactionStatus` value object of the
monitoring loop (section 3 of the spec). -/
structure TransactionStatus where
  identifier : String
  state : TxState
  observedAt : ℚ
  fee : Option ℚ
deriving DecidableEq

/-- Modelled from the spec: the fixed-per-session `PollingPolicy`
configuration, with the spec defaults. -/
structure PollingPolicy where
  initialIntervalMs : ℚ := 2000
  maxIntervalMs : ℚ := 10000
  backoffMultiplier : ℚ := 3 / 2
  timeoutMs : ℚ := 60000
deriving DecidableEq

/-- The default policy: the constants of the original polling loop. -/
def defaultPolicy : PollingPolicy := {}

/-- Modelled from the spec: one answer of the Status Provider — a status
(state and optional fee) or a transient error. -/
inductive ProviderResult where
  | ok (state : TxState) (fee : Option ℚ)
  | transientError
deriving DecidableEq

/-- The state the monitor observes in a provider answer: a transient error
is treated as a `pending` observation (step b of the loop). -/
def ProviderResult.observedState : ProviderResult → TxState
  | .ok s _ => s
  | .transientError => .pending

/-- The status the monitor records for a provider answer at poll time
`now`. -/
def observedStatus (id : String) (now : ℚ) : ProviderResult → TransactionStatus
  | .ok s f => ⟨id, s, now, f⟩
  | .transientError => ⟨id, .pending, now, none⟩

/-- Modelled from the spec: the `MonitoringTimeout` failure, carrying the
identifier and the elapsed duration. -/
structure MonitoringTimeout where
  identifier : String
  elapsedMs : ℚ
deriving DecidableEq

/-- Final outcome of a monitoring session: resolved with a terminal status,
or failed with a timeout. -/
inductive MonitorResult where
  | resolved (status : TransactionStatus)
  | timedOut (e : MonitoringTimeout)
deriving DecidableEq

/-- Everything observable about one monitoring session: its outcome, the
statuses delivered to `onProgress` in order, and the waits performed
between successive polls. -/
structure MonitorTrace where
  result : MonitorResult
  progress : List TransactionStatus
  waits : List ℚ
deriving DecidableEq

/-- Modelled from the spec: the polling loop of section 4.1 (the monitor
source file is not under the sources; `src/unnamed/part_000` is its
documentation).  One iteration: query the provider (`prov n`), treat a
transient error as `pending`; on a terminal state deliver the final status
and resolve; otherwise deliver the pending status, fail with
`MonitoringTimeout` once `now` reaches the deadline, else wait `interval`
and continue with `interval := min (interval * backoffMultiplier)
maxIntervalMs`.  Queries are instantaneous; `fuel` bounds the number of
iterations so the function is total (`none` means the bound was hit). -/
def monitorLoop (pol : PollingPolicy) (id : String)
    (prov : ℕ → ProviderResult) :
    ℕ → ℕ → ℚ → ℚ → Option MonitorTrace
  | 0, _, _, _ => none
  | fuel + 1, n, now, interval =>
    let st := observedStatus id now (prov n)
    if st.state ≠ TxState.pending then
      some ⟨MonitorResult.resolved st, [st], []⟩
    else if pol.timeoutMs ≤ now then
      some ⟨MonitorResult.timedOut ⟨id, now⟩, [st], []⟩
    else
      match monitorLoop pol id prov fuel (n + 1) (now + interval)
          (min (interval * pol.backoffMultiplier) pol.maxIntervalMs) with
      | none => none
      | some tr => some ⟨tr.result, st :: tr.progress, interval :: tr.waits⟩

/-- Modelled from the spec: a whole monitoring session — the loop started
at time 0, poll index 0, with the initial interval. -/
def monitorTransaction (pol : PollingPolicy) (id : String)
    (prov : ℕ → ProviderResult) (fuel : ℕ) : Option MonitorTrace :=
  monitorLoop pol id prov fuel 0 0 pol.initialIntervalMs

/-- The sequence of backoff intervals a session uses: the initial interval,
then repeatedly `min (previous * backoffMultiplier) maxIntervalMs`. -/
def intervalSeq (pol : PollingPolicy) : ℕ → ℚ
  | 0 => pol.initialIntervalMs
  | n + 1 => min (intervalSeq pol n * pol.backoffMultiplier) pol.maxIntervalMs

/-- The condition under which the guards of `mintTokens` reject the call,
read off lines 90-101: an address that is empty after trimming, an empty
amount, a non-numeric amount (`Number` gives `NaN`), or a non-positive
numeric amount. -/
def mintInputInvalid (tokenAddress recipient amount adminAddress : String)
    (num : String → Option ℚ) : Prop :=
  jsTrim tokenAddress = "" ∨ jsTrim recipient = "" ∨
    jsTrim adminAddress = "" ∨ amount = "" ∨ num amount = none ∨
    ∃ q, num amount = some q ∧ q ≤ 0

/-- The surfaced messages of the four validation guards of `mintTokens`,
after the catch block rewrites them (the amount message passes through
unchanged, the address messages are wrapped). -/
def mintValidationMessages : List String :=
  ["Minting failed: Token address is required",
   "Minting failed: Recipient address is required",
   "Minting failed: Admin address is required",
   "Invalid amount: must be a positive number"]

/-- A minting environment in which every SDK step succeeds. -/
def mintSdkOk : MintSdk :=
  { build := .ok (), account := fun _ => .ok (), sim := .ok, hash := "cafe" }

/-- A minting environment whose simulation fails with an error mentioning
`auth`. -/
def mintSdkAuth : MintSdk :=
  { build := .ok (), account := fun _ => .ok (),
    sim := .simError "require auth for this call", hash := "cafe" }

/-- A concrete stand-in for the JS `Number` conversion: numeric on the one
literal the witnesses use, `NaN` elsewhere. -/
def numW : String → Option ℚ := fun s => if s = "5" then some 5 else none

/-- A deployment environment in which the invocation build fails with the
invalid-address error the SDK raises for an empty address. -/
def deploySdkAddrErr : DeploySdk :=
  { build := .error (.error "Invalid address"), account := fun _ => .ok (),
    sim := .ok, hash := "", now := 0 }

/-- A deployment environment in which every SDK step succeeds. -/
def deploySdkOk : DeploySdk :=
  { build := .ok (), account := fun _ => .ok (), sim := .ok, hash := "feed",
    now := 1700000000000 }

/-- Deployment parameters with every field empty or zero. -/
def emptyParams : TokenDeployParams :=
  { name := "", symbol := "", decimals := 0, initialSupply := 0,
    adminWallet := "", metadata := none }

/-- Deployment parameters that carry metadata. -/
def paramsMeta : TokenDeployParams :=
  { name := "Nova", symbol := "NOVA", decimals := 7, initialSupply := 1000,
    adminWallet := "GADM", metadata := some ⟨"ipfs://meta"⟩ }

/-- A provider that raises a transient error on every query. -/
def provTransient : ℕ → ProviderResult := fun _ => .transientError

/-- A provider that errors transiently twice and then reports success. -/
def provLateSuccess : ℕ → ProviderResult := fun n =>
  if n < 2 then .transientError else .ok .success none

/-- A provider that errors transiently once and then reports failure. -/
def provLateFailure : ℕ → ProviderResult := fun n =>
  if n = 0 then .transientError else .ok .failed none

/-- A provider that reports success, with a fee, on the very first query. -/
def provFirstSuccess : ℕ → ProviderResult := fun _ => .ok .success (some 100)

/-- A degenerate policy whose first interval exceeds both the cap and the
timeout. -/
def polLongFirst : PollingPolicy :=
  { initialIntervalMs := 100000, maxIntervalMs := 10000,
    backoffMultiplier := 3 / 2, timeoutMs := 50000 }

/-- A degenerate policy with a zero initial interval. -/
def polZero : PollingPolicy :=
  { initialIntervalMs := 0, maxIntervalMs := 10000,
    backoffMultiplier := 3 / 2, timeoutMs := 60000 }

/-! ### Helper lemmas about the minting and deployment flows -/

theorem mintSdkPhase_calls (sdk : MintSdk) (adminAddress : String) :
    ∃ rest, (mintSdkPhase sdk adminAddress).2 =
      SdkCall.buildInvocation :: rest := by
  unfold mintSdkPhase
  cases hb : sdk.build with
  | error e => exact ⟨[], rfl⟩
  | ok u =>
    cases ha : sdk.account adminAddress with
    | error e => exact ⟨[SdkCall.getAccount adminAddress], rfl⟩
    | ok u =>
      cases hs : sdk.sim <;>
        exact ⟨[SdkCall.getAccount adminAddress, SdkCall.simulateTransaction],
          rfl⟩

theorem mintTokensTry_valid (sdk : MintSdk)
    (tokenAddress recipient amount adminAddress : String)
    (num : String → Option ℚ)
    (h : ¬ mintInputInvalid tokenAddress recipient amount adminAddress num) :
    mintTokensTry sdk tokenAddress recipient amount adminAddress num =
      mintSdkPhase sdk adminAddress := by
  rw [mintInputInvalid] at h
  push_neg at h
  obtain ⟨h1, h2, h3, h4, h5, h6⟩ := h
  rw [mintTokensTry, if_neg h1, if_neg h2, if_neg h3, if_neg h4]
  cases hq : num amount with
  | none => exact absurd hq h5
  | some q => exact if_neg (not_le.mpr (h6 q hq))

theorem mintTokensTry_invalid (sdk : MintSdk)
    (tokenAddress recipient amount adminAddress : String)
    (num : String → Option ℚ)
    (h : mintInputInvalid tokenAddress recipient amount adminAddress num) :
    ∃ e ∈ ["Token address is required", "Recipient address is required",
           "Admin address is required",
           "Invalid amount: must be a positive number"],
      mintTokensTry sdk tokenAddress recipient amount adminAddress num =
        (Except.error (JsThrow.error e), []) := by
  rw [mintTokensTry]
  by_cases h1 : jsTrim tokenAddress = ""
  · rw [if_pos h1]; exact ⟨_, by simp, rfl⟩
  rw [if_neg h1]
  by_cases h2 : jsTrim recipient = ""
  · rw [if_pos h2]; exact ⟨_, by simp, rfl⟩
  rw [if_neg h2]
  by_cases h3 : jsTrim adminAddress = ""
  · rw [if_pos h3]; exact ⟨_, by simp, rfl⟩
  rw [if_neg h3]
  by_cases h4 : amount = ""
  · rw [if_pos h4]; exact ⟨_, by simp, rfl⟩
  rw [if_neg h4]
  rcases h with h | h | h | h | h | ⟨q, hq, hq0⟩
  · exact absurd h h1
  · exact absurd h h2
  · exact absurd h h3
  · exact absurd h h4
  · rw [h]; exact ⟨_, by simp, rfl⟩
  · rw [hq]
    exact ⟨_, by simp, if_pos hq0⟩

theorem mintCatch_validation (e : String)
    (he : e ∈ ["Token address is required", "Recipient address is required",
               "Admin address is required",
               "Invalid amount: must be a positive number"]) :
    mintCatch (.error e) ∈ mintValidationMessages := by
  simp only [List.mem_cons, List.not_mem_nil, or_false] at he
  rcases he with rfl | rfl | rfl | rfl <;> decide

/-! ### Theorems about the minting and deployment flows -/

/-- C1: a `mintTokens` call with an invalid input — an address that is
empty (or whitespace-only), or an amount that is missing, non-numeric or
not strictly positive — fails with one of the validation messages and
performs no SDK call at all (no build, no account fetch, no simulation);
with all four inputs valid, the guards pass and the SDK phase is entered
(the call trace starts with the invocation build), so no validation error
is raised. -/
theorem mint_validation_guards (sdk : MintSdk)
    (tokenAddress recipient amount adminAddress : String)
    (num : String → Option ℚ) :
    (mintInputInvalid tokenAddress recipient amount adminAddress num →
      (mintTokens sdk tokenAddress recipient amount adminAddress num).2 = [] ∧
      ∃ m ∈ mintValidationMessages,
        (mintTokens sdk tokenAddress recipient amount adminAddress num).1 =
          Except.error m) ∧
    (¬ mintInputInvalid tokenAddress recipient amount adminAddress num →
      ∃ rest,
        (mintTokens sdk tokenAddress recipient amount adminAddress num).2 =
          SdkCall.buildInvocation :: rest) := by
  constructor
  · intro h
    obtain ⟨e, he, heq⟩ :=
      mintTokensTry_invalid sdk tokenAddress recipient amount adminAddress num h
    refine ⟨by simp [mintTokens, heq],
      mintCatch (.error e), mintCatch_validation e he, ?_⟩
    simp [mintTokens, heq]
  · intro h
    have heq :=
      mintTokensTry_valid sdk tokenAddress recipient amount adminAddress num h
    have h2 : (mintTokens sdk tokenAddress recipient amount adminAddress num).2 =
        (mintSdkPhase sdk adminAddress).2 := by
      simp [mintTokens, heq]
    rw [h2]
    exact mintSdkPhase_calls sdk adminAddress

/-- C1 witness: with an empty token address the call fails on the guard
with an empty trace; with all inputs valid the trace starts with the
invocation build. -/
theorem mint_validation_guards_witness :
    ((mintTokens mintSdkOk "" "GREC" "5" "GADM" numW).2 = [] ∧
      ∃ m ∈ mintValidationMessages,
        (mintTokens mintSdkOk "" "GREC" "5" "GADM" numW).1 =
          Except.error m) ∧
    ∃ rest, (mintTokens mintSdkOk "CTOK" "GREC" "5" "GADM" numW).2 =
      SdkCall.buildInvocation :: rest := by
  constructor
  · exact (mint_validation_guards mintSdkOk "" "GREC" "5" "GADM" numW).1
      (Or.inl (by decide))
  · refine (mint_validation_guards mintSdkOk "CTOK" "GREC" "5" "GADM" numW).2 ?_
    rintro (h | h | h | h | h | ⟨q, hq, hq0⟩)
    · exact absurd h (by decide)
    · exact absurd h (by decide)
    · exact absurd h (by decide)
    · exact absurd h (by decide)
    · exact absurd h (by simp [numW])
    · rw [numW] at hq
      simp only [if_true, Option.some.injEq] at hq
      rw [← hq] at hq0
      norm_num at hq0

/-- C2 counterexample: with an empty `sourceAddress` and an empty
`adminWallet` — the invalid inputs the claim names — `deployToken` does not
stop at a guard clause: SDK work is performed (here the invocation build,
which fails with the invalid-address error the SDK raises), so the call
does not fail with a validation error without invoking any SDK
operation. -/
theorem deploy_validation_counterexample :
    (deployToken deploySdkAddrErr emptyParams "").2 =
      [SdkCall.buildInvocation] ∧
    (deployToken deploySdkAddrErr emptyParams "").1 =
      Except.error "Invalid address" := by
  exact ⟨rfl, rfl⟩

/-- C2 amended: `deployToken` performs no input validation at all — every
call, whatever the parameters and source address, immediately delegates to
the SDK, its call trace starting with the invocation build; errors surface
only from SDK operations through `handleError`, never from a guard
clause. -/
theorem deploy_no_validation (sdk : DeploySdk) (params : TokenDeployParams)
    (sourceAddress : String) :
    ∃ rest, (deployToken sdk params sourceAddress).2 =
      SdkCall.buildInvocation :: rest := by
  unfold deployToken deployTokenTry
  cases hb : sdk.build with
  | error e => exact ⟨[], rfl⟩
  | ok u =>
    cases ha : sdk.account sourceAddress with
    | error e => exact ⟨[SdkCall.getAccount sourceAddress], rfl⟩
    | ok u =>
      cases hs : sdk.sim <;>
        exact ⟨[SdkCall.getAccount sourceAddress, SdkCall.simulateTransaction],
          rfl⟩

/-- C8: the deployment fee is 10000000 stroops, plus 5000000 exactly when
metadata is present, and a successful `deployToken` result carries its
decimal string in `totalFee`. -/
theorem deploy_total_fee (sdk : DeploySdk) (params : TokenDeployParams)
    (sourceAddress : String) :
    calculateTotalFee params =
      (if params.metadata.isSome then 15000000 else 10000000) ∧
    ∀ r, (deployToken sdk params sourceAddress).1 = Except.ok r →
      r.totalFee = toString (calculateTotalFee params) := by
  constructor
  · rw [calculateTotalFee]
    cases params.metadata <;> simp
  · intro r h
    unfold deployToken deployTokenTry at h
    cases hb : sdk.build with
    | error e => rw [hb] at h; exact absurd h (by simp)
    | ok u =>
      rw [hb] at h
      cases ha : sdk.account sourceAddress with
      | error e => rw [ha] at h; exact absurd h (by simp)
      | ok u =>
        rw [ha] at h
        cases hs : sdk.sim <;> rw [hs] at h
        · simp only [Except.ok.injEq] at h
          rw [← h]
        · exact absurd h (by simp)
        · exact absurd h (by simp)

/-- C8 witness: deployment with metadata succeeds with a 15000000-stroop
fee rendered as its decimal string. -/
theorem deploy_total_fee_witness :
    calculateTotalFee paramsMeta = 15000000 ∧
    ({ tokenAddress := "", transactionHash := "feed",
       totalFee := "15000000",
       timestamp := 1700000000000 } : DeploymentResult).totalFee =
      toString (calculateTotalFee paramsMeta) := by
  refine ⟨(deploy_total_fee deploySdkOk paramsMeta "GSRC").1.trans (by decide),
    (deploy_total_fee deploySdkOk paramsMeta "GSRC").2 _ ?_⟩
  rfl

/-- C9: a successful `deployToken` always returns an empty `tokenAddress`;
the flow never populates the actual token address. -/
theorem deploy_token_address_empty (sdk : DeploySdk)
    (params : TokenDeployParams) (sourceAddress : String)
    (r : DeploymentResult)
    (h : (deployToken sdk params sourceAddress).1 = Except.ok r) :
    r.tokenAddress = "" := by
  unfold deployToken deployTokenTry at h
  cases hb : sdk.build with
  | error e => rw [hb] at h; exact absurd h (by simp)
  | ok u =>
    rw [hb] at h
    cases ha : sdk.account sourceAddress with
    | error e => rw [ha] at h; exact absurd h (by simp)
    | ok u =>
      rw [ha] at h
      cases hs : sdk.sim <;> rw [hs] at h
      · simp only [Except.ok.injEq] at h
        rw [← h]
      · exact absurd h (by simp)
      · exact absurd h (by simp)

/-- C9 witness: a concrete successful deployment returns an empty token
address. -/
theorem deploy_token_address_empty_witness :
    ({ tokenAddress := "", transactionHash := "feed",
       totalFee := "15000000",
       timestamp := 1700000000000 } : DeploymentResult).tokenAddress = "" :=
  deploy_token_address_empty deploySdkOk paramsMeta "GSRC" _ (by rfl)

/-- C10: classification of the error surfaced by a failing `mintTokens`
call.  The first block relates the surfaced message to the error thrown
inside the `try` body: a message mentioning `unauthorized` or
`Unauthorized` collapses to the admin-only message, a message mentioning
`Invalid amount` (the validation error) is rethrown unchanged, any other
`Error` is wrapped in `Minting failed: `, and a non-`Error` throw becomes
the unknown-error message.  The last block covers the simulation-error
path: a simulation error mentioning `auth` is first turned into the
authorization message and then collapses to the admin-only message. -/
theorem mint_error_classification (sdk : MintSdk)
    (tokenAddress recipient amount adminAddress : String)
    (num : String → Option ℚ) :
    (∀ msg,
      (mintTokensTry sdk tokenAddress recipient amount adminAddress num).1 =
        Except.error (JsThrow.error msg) →
      (((includes msg "unauthorized" || includes msg "Unauthorized") = true →
        (mintTokens sdk tokenAddress recipient amount adminAddress num).1 =
          Except.error "Unauthorized: Only the admin can mint tokens") ∧
       ((includes msg "unauthorized" || includes msg "Unauthorized") = false →
        includes msg "Invalid amount" = true →
        (mintTokens sdk tokenAddress recipient amount adminAddress num).1 =
          Except.error msg) ∧
       ((includes msg "unauthorized" || includes msg "Unauthorized") = false →
        includes msg "Invalid amount" = false →
        (mintTokens sdk tokenAddress recipient amount adminAddress num).1 =
          Except.error ("Minting failed: " ++ msg)))) ∧
    ((mintTokensTry sdk tokenAddress recipient amount adminAddress num).1 =
        Except.error JsThrow.nonError →
      (mintTokens sdk tokenAddress recipient amount adminAddress num).1 =
        Except.error "Minting failed: Unknown error") ∧
    (∀ s, ¬ mintInputInvalid tokenAddress recipient amount adminAddress num →
      sdk.build = Except.ok () → sdk.account adminAddress = Except.ok () →
      sdk.sim = SimOutcome.simError s → includes s "auth" = true →
      (mintTokens sdk tokenAddress recipient amount adminAddress num).1 =
        Except.error "Unauthorized: Only the admin can mint tokens") := by
  refine ⟨?_, ?_, ?_⟩
  · intro msg h
    have hm : (mintTokens sdk tokenAddress recipient amount adminAddress num).1 =
        Except.error (mintCatch (JsThrow.error msg)) := by
      simp [mintTokens, h]
    refine ⟨?_, ?_, ?_⟩
    · intro hb
      rw [hm, mintCatch, if_pos hb]
    · intro hb hb2
      rw [hm, mintCatch, if_neg (by simp [hb]), if_pos hb2]
    · intro hb hb2
      rw [hm, mintCatch, if_neg (by simp [hb]), if_neg (by simp [hb2])]
  · intro h
    simp [mintTokens, h, mintCatch]
  · intro s hv hbuild hacct hsim hs
    have htry :=
      mintTokensTry_valid sdk tokenAddress recipient amount adminAddress num hv
    have hphase : (mintSdkPhase sdk adminAddress).1 =
        Except.error
          (JsThrow.error
            "Unauthorized: Admin authorization required for minting") := by
      rw [mintSdkPhase, hbuild, hacct, hsim]
      simp [hs]
    have hm : (mintTokens sdk tokenAddress recipient amount adminAddress num).1 =
        Except.error
          (mintCatch
            (JsThrow.error
              "Unauthorized: Admin authorization required for minting")) := by
      simp [mintTokens, htry, hphase]
    rw [hm]
    rfl

/-- C10 witness: a simulation error mentioning `auth`, under valid inputs,
surfaces as the admin-only authorization message. -/
theorem mint_error_classification_witness :
    (mintTokens mintSdkAuth "CTOK" "GREC" "5" "GADM" numW).1 =
      Except.error "Unauthorized: Only the admin can mint tokens" := by
  refine (mint_error_classification mintSdkAuth "CTOK" "GREC" "5" "GADM"
    numW).2.2 "require auth for this call" ?_ rfl rfl rfl (by decide)
  rintro (h | h | h | h | h | ⟨q, hq, hq0⟩)
  · exact absurd h (by decide)
  · exact absurd h (by decide)
  · exact absurd h (by decide)
  · exact absurd h (by decide)
  · exact absurd h (by simp [numW])
  · rw [numW] at hq
    simp only [if_true, Option.some.injEq] at hq
    rw [← hq] at hq0
    norm_num at hq0

/-! ### Helper lemmas about the monitoring loop -/

theorem observedStatus_state (id : String) (now : ℚ) (r : ProviderResult) :
    (observedStatus id now r).state = r.observedState := by
  cases r <;> rfl

theorem monitorLoop_waits (pol : PollingPolicy) (id : String)
    (prov : ℕ → ProviderResult) :
    ∀ fuel n k now tr,
      monitorLoop pol id prov fuel n now (intervalSeq pol k) = some tr →
      tr.waits = (List.range' k tr.waits.length).map (intervalSeq pol) := by
  intro fuel
  induction fuel with
  | zero => intro n k now tr h; exact absurd h (by simp [monitorLoop])
  | succ fuel ih =>
    intro n k now tr h
    rw [monitorLoop] at h
    split at h
    · cases h; rfl
    · split at h
      · cases h; rfl
      · split at h
        · exact absurd h (by simp)
        · rename_i tr2 heq
          have hw := ih (n + 1) (k + 1) (now + intervalSeq pol k) tr2 heq
          cases h
          simp only [List.length_cons, List.range'_succ, List.map_cons,
            List.cons.injEq]
          exact ⟨trivial, hw⟩

theorem intervalSeq_default_eval :
    intervalSeq defaultPolicy 0 = 2000 ∧ intervalSeq defaultPolicy 1 = 3000 ∧
    intervalSeq defaultPolicy 2 = 4500 ∧ intervalSeq defaultPolicy 3 = 6750 ∧
    intervalSeq defaultPolicy 4 = 10000 := by
  norm_num [intervalSeq, defaultPolicy, min_def]

theorem intervalSeq_default_max :
    ∀ k, intervalSeq defaultPolicy (4 + k) = 10000 := by
  intro k
  induction k with
  | zero => exact intervalSeq_default_eval.2.2.2.2
  | succ k ih =>
    have h4 : 4 + (k + 1) = (4 + k) + 1 := rfl
    rw [h4, intervalSeq, ih]
    norm_num [defaultPolicy, min_def]

/-! ### Theorems about the monitoring loop -/

/-- C3: in every session run under the default policy the performed waits
follow the backoff sequence `intervalSeq`, which for the default policy is
`2000, 3000, 4500, 6750, 10000, 10000, …` — each interval being
`min (previous * 1.5) 10000`. -/
theorem backoff_sequence (id : String) (prov : ℕ → ProviderResult)
    (fuel : ℕ) (tr : MonitorTrace)
    (h : monitorTransaction defaultPolicy id prov fuel = some tr) :
    tr.waits = (List.range tr.waits.length).map (intervalSeq defaultPolicy) ∧
    intervalSeq defaultPolicy 0 = 2000 ∧
    intervalSeq defaultPolicy 1 = 3000 ∧
    intervalSeq defaultPolicy 2 = 4500 ∧
    intervalSeq defaultPolicy 3 = 6750 ∧
    (∀ n, 4 ≤ n → intervalSeq defaultPolicy n = 10000) ∧
    (∀ n, intervalSeq defaultPolicy (n + 1) =
      min (intervalSeq defaultPolicy n * (3 / 2)) 10000) := by
  refine ⟨?_, intervalSeq_default_eval.1, intervalSeq_default_eval.2.1,
    intervalSeq_default_eval.2.2.1, intervalSeq_default_eval.2.2.2.1, ?_,
    fun n => rfl⟩
  · have hw := monitorLoop_waits defaultPolicy id prov fuel 0 0 0 tr h
    rwa [← List.range_eq_range'] at hw
  · intro n hn
    obtain ⟨k, rfl⟩ : ∃ k, n = 4 + k := ⟨n - 4, by omega⟩
    exact intervalSeq_default_max k

/-- C3 witness: a concrete default-policy session that polls three times
waits 2000 then 3000 milliseconds, matching the backoff sequence. -/
theorem backoff_sequence_witness :
    ∃ tr, monitorTransaction defaultPolicy "tx" provLateSuccess 3 = some tr ∧
      tr.waits =
        (List.range tr.waits.length).map (intervalSeq defaultPolicy) := by
  have h : monitorTransaction defaultPolicy "tx" provLateSuccess 3 =
      some ⟨MonitorResult.resolved ⟨"tx", TxState.success, 5000, none⟩,
        [⟨"tx", TxState.pending, 0, none⟩, ⟨"tx", TxState.pending, 2000, none⟩,
         ⟨"tx", TxState.success, 5000, none⟩], [2000, 3000]⟩ := by
    simp +decide [monitorTransaction, monitorLoop, provLateSuccess,
      defaultPolicy, observedStatus]
    norm_num [min_def]
  exact ⟨_, h, (backoff_sequence "tx" provLateSuccess 3 _ h).1⟩

theorem monitorLoop_no_resolve (pol : PollingPolicy) (id : String)
    (prov : ℕ → ProviderResult)
    (hpend : ∀ n, (prov n).observedState = TxState.pending) :
    ∀ fuel n now ivl tr,
      monitorLoop pol id prov fuel n now ivl = some tr →
      ∃ e, tr.result = MonitorResult.timedOut ⟨id, e⟩ ∧ pol.timeoutMs ≤ e := by
  intro fuel
  induction fuel with
  | zero => intro n now ivl tr h; exact absurd h (by simp [monitorLoop])
  | succ fuel ih =>
    intro n now ivl tr h
    rw [monitorLoop] at h
    split at h
    · rename_i hc
      exact absurd ((observedStatus_state id now (prov n)).trans (hpend n)) hc
    · split at h
      · rename_i hc2
        cases h
        exact ⟨now, rfl, hc2⟩
      · split at h
        · exact absurd h (by simp)
        · rename_i tr2 heq
          obtain ⟨e, hres, he⟩ := ih (n + 1) _ _ tr2 heq
          cases h
          exact ⟨e, hres, he⟩

theorem monitorLoop_timeout_window (pol : PollingPolicy) (id : String)
    (prov : ℕ → ProviderResult)
    (hpend : ∀ n, (prov n).observedState = TxState.pending)
    (hinit : 0 < pol.initialIntervalMs)
    (hcap : pol.initialIntervalMs ≤ pol.maxIntervalMs)
    (hmult : 1 ≤ pol.backoffMultiplier) :
    ∀ (fuel n : ℕ) (now ivl : ℚ),
      pol.initialIntervalMs ≤ ivl → ivl ≤ pol.maxIntervalMs →
      now < pol.timeoutMs →
      pol.timeoutMs + pol.initialIntervalMs ≤
        now + (fuel : ℚ) * pol.initialIntervalMs →
      ∃ tr e, monitorLoop pol id prov fuel n now ivl = some tr ∧
        tr.result = MonitorResult.timedOut ⟨id, e⟩ ∧
        pol.timeoutMs ≤ e ∧ e < pol.timeoutMs + pol.maxIntervalMs := by
  intro fuel
  induction fuel with
  | zero =>
    intro n now ivl h1 h2 h3 h4
    exfalso
    push_cast at h4
    linarith
  | succ fuel ih =>
    intro n now ivl hivl1 hivl2 hnow hfuel
    have h0ivl : (0 : ℚ) ≤ ivl := le_trans (le_of_lt hinit) hivl1
    have hst : (observedStatus id now (prov n)).state = TxState.pending :=
      (observedStatus_state id now (prov n)).trans (hpend n)
    rw [monitorLoop, if_neg (not_ne_iff.mpr hst), if_neg (not_le.mpr hnow)]
    by_cases hnext : now + ivl < pol.timeoutMs
    · obtain ⟨tr2, e, heq, hres, he1, he2⟩ :=
        ih (n + 1) (now + ivl)
          (min (ivl * pol.backoffMultiplier) pol.maxIntervalMs)
          (le_min (hivl1.trans (le_mul_of_one_le_right h0ivl hmult)) hcap)
          (min_le_right _ _) hnext
          (by push_cast at hfuel ⊢; linarith)
      refine ⟨⟨tr2.result, observedStatus id now (prov n) :: tr2.progress,
        ivl :: tr2.waits⟩, e, ?_, hres, he1, he2⟩
      rw [heq]
    · have hnext2 : pol.timeoutMs ≤ now + ivl := not_lt.mp hnext
      cases fuel with
      | zero =>
        exfalso
        push_cast at hfuel
        linarith
      | succ fuel2 =>
        have hst2 :
            (observedStatus id (now + ivl) (prov (n + 1))).state =
              TxState.pending :=
          (observedStatus_state id (now + ivl) (prov (n + 1))).trans
            (hpend (n + 1))
        rw [monitorLoop, if_neg (not_ne_iff.mpr hst2), if_pos hnext2]
        exact ⟨⟨MonitorResult.timedOut ⟨id, now + ivl⟩,
          observedStatus id now (prov n) ::
            [observedStatus id (now + ivl) (prov (n + 1))],
          ivl :: []⟩, now + ivl, rfl, rfl, hnext2, by linarith⟩

/-- C4 amended: for every policy with a positive initial interval no larger
than the cap, a backoff multiplier of at least one and a nonnegative
timeout, and every provider behavior in which no terminal state is
observed, the monitor (given enough fuel to reach the deadline) fails with
a `MonitoringTimeout` whose elapsed time lies in
`[timeoutMs, timeoutMs + maxIntervalMs]`. -/
theorem monitoring_timeout_window (pol : PollingPolicy) (id : String)
    (prov : ℕ → ProviderResult) (fuel : ℕ)
    (hpend : ∀ n, (prov n).observedState = TxState.pending)
    (hinit : 0 < pol.initialIntervalMs)
    (hcap : pol.initialIntervalMs ≤ pol.maxIntervalMs)
    (hmult : 1 ≤ pol.backoffMultiplier)
    (htime : 0 ≤ pol.timeoutMs)
    (hfuel : pol.timeoutMs + pol.initialIntervalMs ≤
      (fuel : ℚ) * pol.initialIntervalMs) :
    ∃ tr e, monitorTransaction pol id prov fuel = some tr ∧
      tr.result = MonitorResult.timedOut ⟨id, e⟩ ∧
      pol.timeoutMs ≤ e ∧ e ≤ pol.timeoutMs + pol.maxIntervalMs := by
  by_cases h0 : pol.timeoutMs ≤ 0
  · cases fuel with
    | zero =>
      exfalso
      push_cast at hfuel
      linarith
    | succ fuel2 =>
      have hst : (observedStatus id 0 (prov 0)).state = TxState.pending :=
        (observedStatus_state id 0 (prov 0)).trans (hpend 0)
      unfold monitorTransaction
      rw [monitorLoop, if_neg (not_ne_iff.mpr hst), if_pos h0]
      exact ⟨_, 0, rfl, rfl, h0, by linarith [lt_of_lt_of_le hinit hcap]⟩
  · push_neg at h0
    obtain ⟨tr, e, heq, hres, h1, h2⟩ :=
      monitorLoop_timeout_window pol id prov hpend hinit hcap hmult fuel 0 0
        pol.initialIntervalMs le_rfl hcap h0 (by linarith)
    exact ⟨tr, e, heq, hres, h1, le_of_lt h2⟩

/-- C4 counterexample: a policy whose first interval exceeds both the cap
and the timeout makes the monitor time out after 100000 ms, strictly more
than `timeoutMs + maxIntervalMs = 60000` — so the window claim does not
hold for every policy. -/
theorem timeout_window_counterexample :
    (∃ tr, monitorTransaction polLongFirst "tx" provTransient 2 = some tr ∧
      tr.result = MonitorResult.timedOut ⟨"tx", 100000⟩) ∧
    polLongFirst.timeoutMs + polLongFirst.maxIntervalMs < 100000 := by
  constructor
  · refine ⟨⟨MonitorResult.timedOut ⟨"tx", 100000⟩,
      [⟨"tx", TxState.pending, 0, none⟩,
       ⟨"tx", TxState.pending, 100000, none⟩], [100000]⟩, ?_, rfl⟩
    simp +decide [monitorTransaction, monitorLoop, provTransient, polLongFirst,
      observedStatus]
  · norm_num [polLongFirst]

/-- C4 witness: the default policy with an all-transient provider times out
within the stated window. -/
theorem monitoring_timeout_window_witness :
    ∃ tr e, monitorTransaction defaultPolicy "tx" provTransient 31 = some tr ∧
      tr.result = MonitorResult.timedOut ⟨"tx", e⟩ ∧
      defaultPolicy.timeoutMs ≤ e ∧
      e ≤ defaultPolicy.timeoutMs + defaultPolicy.maxIntervalMs :=
  monitoring_timeout_window defaultPolicy "tx" provTransient 31
    (fun _ => rfl) (by norm_num [defaultPolicy]) (by norm_num [defaultPolicy])
    (by norm_num [defaultPolicy]) (by norm_num [defaultPolicy])
    (by norm_num [defaultPolicy])

theorem observedStatus_observedAt (id : String) (now : ℚ)
    (r : ProviderResult) : (observedStatus id now r).observedAt = now := by
  cases r <;> rfl

/-- C5: under the default policy, a provider that raises a transient error
on every query never makes the monitor resolve with a status and never
surfaces any error other than a timeout: every terminating run fails with
a `MonitoringTimeout` carrying the identifier and an elapsed time that has
reached the deadline, and the monitor does terminate once given enough
fuel to reach the deadline. -/
theorem transient_errors_collapse_to_timeout (id : String)
    (prov : ℕ → ProviderResult)
    (hprov : ∀ n, prov n = ProviderResult.transientError) :
    (∀ fuel tr, monitorTransaction defaultPolicy id prov fuel = some tr →
      ∃ e, tr.result = MonitorResult.timedOut ⟨id, e⟩ ∧
        defaultPolicy.timeoutMs ≤ e) ∧
    ∃ fuel tr, monitorTransaction defaultPolicy id prov fuel = some tr := by
  have hpend : ∀ n, (prov n).observedState = TxState.pending := by
    intro n
    rw [hprov n]
    rfl
  constructor
  · intro fuel tr h
    exact monitorLoop_no_resolve defaultPolicy id prov hpend fuel 0 0
      defaultPolicy.initialIntervalMs tr h
  · obtain ⟨tr, e, heq, hrest⟩ :=
      monitorLoop_timeout_window defaultPolicy id prov hpend
        (by norm_num [defaultPolicy]) (by norm_num [defaultPolicy])
        (by norm_num [defaultPolicy]) 31 0 0
        defaultPolicy.initialIntervalMs le_rfl
        (by norm_num [defaultPolicy]) (by norm_num [defaultPolicy])
        (by norm_num [defaultPolicy])
    exact ⟨31, tr, heq⟩

/-- C5 witness: the all-transient provider under the default policy. -/
theorem transient_errors_collapse_to_timeout_witness :
    (∀ fuel tr,
      monitorTransaction defaultPolicy "tx" provTransient fuel = some tr →
      ∃ e, tr.result = MonitorResult.timedOut ⟨"tx", e⟩ ∧
        defaultPolicy.timeoutMs ≤ e) ∧
    ∃ fuel tr,
      monitorTransaction defaultPolicy "tx" provTransient fuel = some tr :=
  transient_errors_collapse_to_timeout "tx" provTransient fun _ => rfl

/-- C6: if the provider reports success on the first query, the monitor —
under any policy — resolves immediately with that status observed at time
0: the session polls exactly once, delivers exactly one status to
`onProgress` (the final one) and performs no waits. -/
theorem first_query_success_resolves (pol : PollingPolicy) (id : String)
    (prov : ℕ → ProviderResult) (fuel : ℕ) (f : Option ℚ)
    (hfirst : prov 0 = ProviderResult.ok TxState.success f)
    (hfuel : 1 ≤ fuel) :
    monitorTransaction pol id prov fuel =
      some ⟨MonitorResult.resolved ⟨id, TxState.success, 0, f⟩,
        [⟨id, TxState.success, 0, f⟩], []⟩ := by
  cases fuel with
  | zero => exact absurd hfuel (by omega)
  | succ fuel2 =>
    unfold monitorTransaction
    rw [monitorLoop, hfirst]
    simp +decide [observedStatus]

/-- C6 witness: a provider that succeeds at once resolves the session in a
single poll. -/
theorem first_query_success_resolves_witness :
    monitorTransaction defaultPolicy "tx" provFirstSuccess 1 =
      some ⟨MonitorResult.resolved ⟨"tx", TxState.success, 0, some 100⟩,
        [⟨"tx", TxState.success, 0, some 100⟩], []⟩ :=
  first_query_success_resolves defaultPolicy "tx" provFirstSuccess 1
    (some 100) rfl le_rfl

theorem monitorLoop_progress (pol : PollingPolicy) (id : String)
    (prov : ℕ → ProviderResult)
    (hmax : 0 < pol.maxIntervalMs) (hmult : 1 ≤ pol.backoffMultiplier) :
    ∀ (fuel n : ℕ) (now ivl : ℚ) (tr : MonitorTrace), 0 < ivl →
      monitorLoop pol id prov fuel n now ivl = some tr →
      (List.Chain' (fun a b => a.observedAt < b.observedAt) tr.progress ∧
        ∀ st ∈ tr.progress.dropLast, st.state = TxState.pending) ∧
      (∀ st ∈ tr.progress, now ≤ st.observedAt) ∧ tr.progress ≠ [] := by
  intro fuel
  induction fuel with
  | zero => intro n now ivl tr h0 h; exact absurd h (by simp [monitorLoop])
  | succ fuel ih =>
    intro n now ivl tr hivl h
    rw [monitorLoop] at h
    split at h
    · cases h
      refine ⟨⟨List.chain'_singleton _, by simp⟩, ?_, by simp⟩
      intro st hst
      simp only [List.mem_singleton] at hst
      rw [hst, observedStatus_observedAt]
    · rename_i hc1
      split at h
      · cases h
        refine ⟨⟨List.chain'_singleton _, by simp⟩, ?_, by simp⟩
        intro st hst
        simp only [List.mem_singleton] at hst
        rw [hst, observedStatus_observedAt]
      · split at h
        · exact absurd h (by simp)
        · rename_i tr2 heq
          have hstate :
              (observedStatus id now (prov n)).state = TxState.pending :=
            not_ne_iff.mp hc1
          have hmin :
              0 < min (ivl * pol.backoffMultiplier) pol.maxIntervalMs :=
            lt_min
              (lt_of_lt_of_le hivl
                (le_mul_of_one_le_right (le_of_lt hivl) hmult)) hmax
          obtain ⟨⟨hch, hdp⟩, hlb, hne⟩ :=
            ih (n + 1) (now + ivl) _ tr2 hmin heq
          cases h
          refine ⟨⟨?_, ?_⟩, ?_, by simp⟩
          · refine List.chain'_cons'.mpr ⟨?_, hch⟩
            intro y hy
            have hym := hlb y (List.mem_of_mem_head? hy)
            simp only [observedStatus_observedAt]
            linarith
          · intro st hst
            rw [List.dropLast_cons_of_ne_nil hne] at hst
            rcases List.mem_cons.mp hst with rfl | hmem
            · exact hstate
            · exact hdp st hmem
          · intro st hst
            rcases List.mem_cons.mp hst with rfl | hmem
            · rw [observedStatus_observedAt]
            · linarith [hlb st hmem]

/-- C7 amended: in every session whose policy has a positive initial
interval, a positive interval cap and a backoff multiplier of at least
one, the statuses delivered to `onProgress` have strictly increasing
`observedAt` timestamps, and only the final delivered status can carry a
terminal state — once a terminal status is delivered, nothing further is
delivered.  (With a zero initial interval, consecutive statuses share a
timestamp, so the strictness needs these policy conditions.) -/
theorem progress_monotonicity (pol : PollingPolicy) (id : String)
    (prov : ℕ → ProviderResult) (fuel : ℕ) (tr : MonitorTrace)
    (hinit : 0 < pol.initialIntervalMs) (hmax : 0 < pol.maxIntervalMs)
    (hmult : 1 ≤ pol.backoffMultiplier)
    (h : monitorTransaction pol id prov fuel = some tr) :
    List.Chain' (fun a b => a.observedAt < b.observedAt) tr.progress ∧
    ∀ st ∈ tr.progress.dropLast, st.state = TxState.pending :=
  (monitorLoop_progress pol id prov hmax hmult fuel 0 0
    pol.initialIntervalMs tr hinit h).1

/-- C7 counterexample: with a zero initial interval the delivered statuses
are not strictly increasing in `observedAt` — three statuses are all
observed at time 0. -/
theorem progress_monotonicity_counterexample :
    ∃ tr, monitorTransaction polZero "tx" provLateSuccess 3 = some tr ∧
      ¬ List.Chain' (fun a b => a.observedAt < b.observedAt) tr.progress := by
  refine ⟨⟨MonitorResult.resolved ⟨"tx", TxState.success, 0, none⟩,
    [⟨"tx", TxState.pending, 0, none⟩, ⟨"tx", TxState.pending, 0, none⟩,
     ⟨"tx", TxState.success, 0, none⟩], [0, 0]⟩, ?_, ?_⟩
  · simp +decide [monitorTransaction, monitorLoop, provLateSuccess, polZero,
      observedStatus]
  · intro hch
    rw [List.chain'_cons] at hch
    exact lt_irrefl _ hch.1

/-- C7 witness: a default-policy session that observes pending then failed
delivers its two statuses at strictly increasing times, the terminal one
last. -/
theorem progress_monotonicity_witness :
    ∃ tr, monitorTransaction defaultPolicy "w" provLateFailure 2 = some tr ∧
      List.Chain' (fun a b => a.observedAt < b.observedAt) tr.progress ∧
      ∀ st ∈ tr.progress.dropLast, st.state = TxState.pending := by
  have h : monitorTransaction defaultPolicy "w" provLateFailure 2 =
      some ⟨MonitorResult.resolved ⟨"w", TxState.failed, 2000, none⟩,
        [⟨"w", TxState.pending, 0, none⟩,
         ⟨"w", TxState.failed, 2000, none⟩], [2000]⟩ := by
    simp +decide [monitorTransaction, monitorLoop, provLateFailure,
      defaultPolicy, observedStatus]
  obtain ⟨hch, hdp⟩ :=
    progress_monotonicity defaultPolicy "w" provLateFailure 2 _
      (by norm_num [defaultPolicy]) (by norm_num [defaultPolicy])
      (by norm_num [defaultPolicy]) h
  exact ⟨_, h, hch, hdp⟩

end NovaLaunch
